import Mathlib

/-!
Verification of the OAuth 1.0a request-signing routine and the browser app of
the X-bookmark-fetcher repository.  The signer lives in
`scripts/fetch-x-bookmarks.mjs` (`generateOAuthSignature`, `createOAuthHeader`);
the browser app in `src/App.tsx` (`fetchBookmarks`).

Modelling conventions:
* a JavaScript string is a `Str := List Nat` of Unicode scalar values
  (code points);
* a JavaScript object with string keys and string values is an association
  list `List (Str × Str)` whose keys are distinct, in insertion order;
* byte sequences are `List Nat` with entries below 256;
* the clock (`Date.now()`) and the two `Math.random()` draws feeding the nonce
  are explicit inputs.
-/

set_option maxRecDepth 100000

/-- A JavaScript string, as its list of Unicode scalar values. -/
abbrev Str := List Nat

/-- Convert a Lean string literal to its code-point list. -/
def asStr (s : String) : Str := s.data.map Char.toNat

/-- Truncate to 32 bits. -/
def u32 (x : Nat) : Nat := x % 4294967296

/-- Rotate a 32-bit word left by `n` (source: the SHA-1 primitive used by
Node's `createHmac('sha1', ...)`). -/
def rotl (n x : Nat) : Nat := u32 ((x <<< n) ||| (x >>> (32 - n)))

/-- UTF-8 encoding of one Unicode scalar value. -/
def utf8EncodeChar (c : Nat) : List Nat :=
  if c < 128 then [c]
  else if c < 2048 then [192 + c / 64, 128 + c % 64]
  else if c < 65536 then [224 + c / 4096, 128 + (c / 64) % 64, 128 + c % 64]
  else [240 + c / 262144, 128 + (c / 4096) % 64, 128 + (c / 64) % 64, 128 + c % 64]

/-- UTF-8 encoding of a string (what Node's `hmac.update(string)` hashes). -/
def utf8Str (s : Str) : List Nat := (s.map utf8EncodeChar).flatten

/-- UTF-16 code units of one Unicode scalar value (JavaScript's native string
representation, which its `<` comparison and hence `Array.prototype.sort`
default comparator uses). -/
def utf16Units (c : Nat) : List Nat :=
  if c < 65536 then [c]
  else [55296 + (c - 65536) / 1024, 56320 + (c - 65536) % 1024]

/-- UTF-16 code-unit sequence of a string. -/
def utf16Str (s : Str) : List Nat := (s.map utf16Units).flatten

/-- Strict lexicographic order on `List Nat`. -/
def ltLex : List Nat → List Nat → Bool
  | [], [] => false
  | [], _ :: _ => true
  | _ :: _, [] => false
  | a :: as, b :: bs => if a < b then true else if b < a then false else ltLex as bs

/-- JavaScript string `<`: lexicographic comparison of UTF-16 code units. -/
def jsLtStr (s t : Str) : Bool := ltLex (utf16Str s) (utf16Str t)

/-- JavaScript string `≤` (negation of reversed `<`). -/
def jsLeStr (s t : Str) : Bool := !(jsLtStr t s)

/-- The sort order of JavaScript's default string `sort()`, as a relation. -/
def JsLe (s t : Str) : Prop := jsLeStr s t = true

instance : DecidableRel JsLe := fun s t => by unfold JsLe; infer_instance

/-- Strict byte-wise (UTF-8) order on strings. -/
def byteLtStr (s t : Str) : Bool := ltLex (utf8Str s) (utf8Str t)

/-- Byte-wise (UTF-8) `≤` on strings: the order named by the specification. -/
def ByteLe (s t : Str) : Prop := byteLtStr t s = false

instance : DecidableRel ByteLe := fun s t => by unfold ByteLe; infer_instance

/-- SHA-1 chunking worker: the fuel bounds the number of chunks, so the
recursion is structural (the fuel `l.length` always suffices, since every
step removes at least one element from a non-empty list). -/
def chunks64Go : Nat → List Nat → List (List Nat)
  | 0, _ => []
  | _ + 1, [] => []
  | fuel + 1, l => l.take 64 :: chunks64Go fuel (l.drop 64)

/-- SHA-1: split a byte list into 64-byte chunks. -/
def chunks64 (l : List Nat) : List (List Nat) := chunks64Go l.length l

/-- SHA-1: group bytes into big-endian 32-bit words. -/
def beWords : List Nat → List Nat
  | a :: b :: c :: d :: rest => (a * 16777216 + b * 65536 + c * 256 + d) :: beWords rest
  | _ => []

/-- SHA-1 message-schedule extension: append `n` further words, each the
1-bit left-rotation of the xor of the words 3, 8, 14 and 16 places back. -/
def sha1Extend (ws : List Nat) : Nat → List Nat
  | 0 => ws
  | n + 1 =>
    sha1Extend
      (ws ++ [rotl 1 (ws.getD (ws.length - 3) 0 ^^^ ws.getD (ws.length - 8) 0 ^^^
        ws.getD (ws.length - 14) 0 ^^^ ws.getD (ws.length - 16) 0)]) n

/-- SHA-1 round function and constant for round `t`. -/
def sha1FK (t b c d : Nat) : Nat × Nat :=
  if t < 20 then ((b &&& c) ||| ((4294967295 - b) &&& d), 1518500249)
  else if t < 40 then (b ^^^ c ^^^ d, 1859775393)
  else if t < 60 then ((b &&& c) ||| (b &&& d) ||| (c &&& d), 2400959708)
  else (b ^^^ c ^^^ d, 3395469782)

/-- SHA-1 compression of one 64-byte chunk into the running state. -/
def sha1Chunk (h5 : Nat × Nat × Nat × Nat × Nat) (chunk : List Nat) :
    Nat × Nat × Nat × Nat × Nat :=
  let w := sha1Extend (beWords chunk) 64
  let (h0, h1, h2, h3, h4) := h5
  let (a, b, c, d, e) :=
    w.enum.foldl
      (fun st tw =>
        let (a, b, c, d, e) := st
        let (f, k) := sha1FK tw.1 b c d
        (u32 (rotl 5 a + f + e + k + tw.2), a, rotl 30 b, c, d))
      (h0, h1, h2, h3, h4)
  (u32 (h0 + a), u32 (h1 + b), u32 (h2 + c), u32 (h3 + d), u32 (h4 + e))

/-- SHA-1 padding: 0x80, zeros to 56 mod 64, 8-byte big-endian bit length. -/
def sha1Pad (msg : List Nat) : List Nat :=
  msg ++ [128] ++ List.replicate ((119 - msg.length % 64) % 64) 0 ++
    [(msg.length * 8) >>> 56 % 256, (msg.length * 8) >>> 48 % 256,
     (msg.length * 8) >>> 40 % 256, (msg.length * 8) >>> 32 % 256,
     (msg.length * 8) >>> 24 % 256, (msg.length * 8) >>> 16 % 256,
     (msg.length * 8) >>> 8 % 256, (msg.length * 8) % 256]

/-- Big-endian bytes of a 32-bit word. -/
def wordBytes (w : Nat) : List Nat :=
  [w >>> 24 % 256, w >>> 16 % 256, w >>> 8 % 256, w % 256]

/-- SHA-1 of a byte list, as the 20-byte digest. -/
def sha1 (msg : List Nat) : List Nat :=
  let (h0, h1, h2, h3, h4) :=
    (chunks64 (sha1Pad msg)).foldl sha1Chunk
      (1732584193, 4023233417, 2562383102, 271733878, 3285377520)
  wordBytes h0 ++ wordBytes h1 ++ wordBytes h2 ++ wordBytes h3 ++ wordBytes h4

/-- HMAC-SHA1 (Node `createHmac('sha1', key).update(msg).digest()`). -/
def hmacSha1 (key msg : List Nat) : List Nat :=
  let k0 := if 64 < key.length then sha1 key else key
  let kp := k0 ++ List.replicate (64 - k0.length) 0
  sha1 (kp.map (· ^^^ 92) ++ sha1 (kp.map (· ^^^ 54) ++ msg))

/-- The base64 alphabet character at index `i`. -/
def b64Char (i : Nat) : Nat :=
  (asStr "ABCDEFGHIJKLMNOPQRSTUVWXYZabcdefghijklmnopqrstuvwxyz0123456789+/").getD i 0

/-- Standard base64 of a byte list (Node `.digest('base64')`), with padding. -/
def base64 : List Nat → Str
  | [] => []
  | [b1] => [b64Char (b1 / 4), b64Char (b1 % 4 * 16), 61, 61]
  | [b1, b2] => [b64Char (b1 / 4), b64Char (b1 % 4 * 16 + b2 / 16), b64Char (b2 % 16 * 4), 61]
  | b1 :: b2 :: b3 :: rest =>
    b64Char (b1 / 4) :: b64Char (b1 % 4 * 16 + b2 / 16) ::
      b64Char (b2 % 16 * 4 + b3 / 64) :: b64Char (b3 % 64) :: base64 rest

-- Known-answer checks for the cryptographic pipeline.
example : sha1 [] =
    [218, 57, 163, 238, 94, 107, 75, 13, 50, 85, 191, 239, 149, 96, 24, 144,
     175, 216, 7, 9] := by decide

example : sha1 (utf8Str (asStr "abc")) =
    [169, 153, 62, 54, 71, 6, 129, 106, 186, 62, 37, 113, 120, 80, 194, 108,
     156, 208, 216, 157] := by decide

example :
    hmacSha1 (utf8Str (asStr "Jefe")) (utf8Str (asStr "what do ya want for nothing?")) =
    [239, 252, 223, 106, 229, 235, 47, 162, 210, 116, 22, 213, 241, 132, 223,
     156, 37, 154, 124, 121] := by decide

example : base64 (sha1 (utf8Str (asStr "abc"))) = asStr "qZk+NkcGgWq6PiVxeFDCbJzQ2J0=" := by
  decide

example : base64 [1] = asStr "AQ==" ∧ base64 [1, 2] = asStr "AQI=" := by decide

/-- Uppercase hexadecimal digit character (code point) for `x < 16`. -/
def hexUpper (x : Nat) : Nat := if x < 10 then 48 + x else 55 + x

/-- `%XX` escape (uppercase hex) of one byte. -/
def percentEscape (b : Nat) : List Nat := [37, hexUpper (b / 16), hexUpper (b % 16)]

/-- The character set ECMAScript's `encodeURIComponent` leaves unescaped:
ASCII letters, digits, and the marks `- _ . ! ~ * ' ( )`. -/
def uriUnescaped (c : Nat) : Bool :=
  (65 ≤ c && c ≤ 90) || (97 ≤ c && c ≤ 122) || (48 ≤ c && c ≤ 57) ||
    c == 45 || c == 95 || c == 46 || c == 33 || c == 126 || c == 42 ||
    c == 39 || c == 40 || c == 41

/-- JavaScript's `encodeURIComponent`: keep `uriUnescaped` characters, replace
every other character by the uppercase-hex `%XX` escapes of its UTF-8 bytes.
This is the encoder `generateOAuthSignature` and `createOAuthHeader` apply to
every parameter name and value. -/
def encodeURIComponent (s : Str) : Str :=
  (s.map (fun c =>
    if uriUnescaped c then [c] else ((utf8EncodeChar c).map percentEscape).flatten)).flatten

/-- The RFC 3986 unreserved characters: letters, digits, `- . _ ~`
(the set named by the specification). -/
def rfc3986Unreserved (c : Nat) : Bool :=
  (65 ≤ c && c ≤ 90) || (97 ≤ c && c ≤ 122) || (48 ≤ c && c ≤ 57) ||
    c == 45 || c == 46 || c == 95 || c == 126

/-- Percent-encoding as the specification words it: exactly the RFC 3986
unreserved characters stay, everything else becomes uppercase-hex `%XX`
escapes of its UTF-8 bytes. -/
def rfc3986Encode (s : Str) : Str :=
  (s.map (fun c =>
    if rfc3986Unreserved c then [c] else ((utf8EncodeChar c).map percentEscape).flatten)).flatten

/-- Value of a hexadecimal digit character. -/
def hexVal (d : Nat) : Nat := if d < 58 then d - 48 else if d < 97 then d - 55 else d - 87

/-- Byte denoted by two hexadecimal digit characters. -/
def fromHexPair (h l : Nat) : Nat := hexVal h * 16 + hexVal l

/-- Percent-decoding (the inverse operation named by the round-trip property):
each `%XX` escape becomes the byte it denotes, every other character passes
through. -/
def percentDecode : Str → Str
  | [] => []
  | 37 :: h :: l :: rest => fromHexPair h l :: percentDecode rest
  | c :: rest => c :: percentDecode rest

/-- JavaScript object field write: replace the value at the first occurrence
of the key, keeping its position, or append a fresh key at the end. -/
def objSet : List (Str × Str) → Str → Str → List (Str × Str)
  | [], k, v => [(k, v)]
  | kv :: rest, k, v =>
    if kv.1 == k then (kv.1, v) :: rest else kv :: objSet rest k v

/-- JavaScript object spread `\x7b ...a, ...b \x7d`: fields of `b` written
into `a` in order, later keys overriding earlier ones in place. -/
def objMerge (a b : List (Str × Str)) : List (Str × Str) :=
  b.foldl (fun o kv => objSet o kv.1 kv.2) a

/-- Object read with the empty string as default (keys we read are present). -/
def lookupD (o : List (Str × Str)) (k : Str) : Str := (o.lookup k).getD []

/-- JavaScript `Array.prototype.sort()` on a list of distinct strings: the
unique permutation ascending under the default comparator, which compares
UTF-16 code units; realized by a sort that is stable, hence agrees with the
engine's sort even with duplicates. -/
def sortStrs (l : List Str) : List Str := List.insertionSort JsLe l

/-- `Array.prototype.join(sep)`. -/
def joinSep (sep : Str) : List Str → Str
  | [] => []
  | [x] => x
  | x :: y :: rest => x ++ sep ++ joinSep sep (y :: rest)

/-- The four OAuth 1.0a credential strings (environment variables `X_API_KEY`,
`X_API_SECRET`, `X_ACCESS_TOKEN`, `X_ACCESS_TOKEN_SECRET`). -/
structure Credential where
  consumerKey : Str
  consumerSecret : Str
  accessToken : Str
  accessTokenSecret : Str

def kConsumerKey : Str := asStr "oauth_consumer_key"
def kToken : Str := asStr "oauth_token"
def kSignatureMethod : Str := asStr "oauth_signature_method"
def kTimestamp : Str := asStr "oauth_timestamp"
def kNonce : Str := asStr "oauth_nonce"
def kVersion : Str := asStr "oauth_version"
def kSignature : Str := asStr "oauth_signature"

/-- The names the sorted parameter string emits, in emission order (source
line 69-70: `Object.keys(params).sort()`). -/
def paramNamesInOrder (params : List (Str × Str)) : List Str :=
  sortStrs (params.map Prod.fst)

/-- Source lines 69-72: sort the parameter names, render each pair as
`name=value` with both sides `encodeURIComponent`-encoded, join with `&`. -/
def signatureParamString (params : List (Str × Str)) : Str :=
  joinSep (asStr "&")
    ((paramNamesInOrder params).map (fun k =>
      encodeURIComponent k ++ asStr "=" ++ encodeURIComponent (lookupD params k)))

/-- Source lines 67-86, `generateOAuthSignature(method, url, params,
consumerSecret, tokenSecret)`. -/
def generateOAuthSignature (method url : Str) (params : List (Str × Str))
    (consumerSecret tokenSecret : Str) : Str :=
  let sortedParams := signatureParamString params
  let signatureBaseString :=
    method ++ asStr "&" ++ encodeURIComponent url ++ asStr "&" ++
      encodeURIComponent sortedParams
  let signingKey :=
    encodeURIComponent consumerSecret ++ asStr "&" ++ encodeURIComponent tokenSecret
  base64 (hmacSha1 (utf8Str signingKey) (utf8Str signatureBaseString))

/-- The signature base string as the specification words it (step 5). -/
def specSignatureBaseString (method url : Str) (params : List (Str × Str)) : Str :=
  method ++ asStr "&" ++ encodeURIComponent url ++ asStr "&" ++
    encodeURIComponent (signatureParamString params)

/-- The signing key as the specification words it (step 6). -/
def specSigningKey (consumerSecret tokenSecret : Str) : Str :=
  encodeURIComponent consumerSecret ++ asStr "&" ++ encodeURIComponent tokenSecret

/-- JavaScript `(n).toString()` for a whole number: decimal digits. -/
def natToDecStr (n : Nat) : Str := asStr (toString n)

/-- `s.substring(2, 15)` from source line 97. -/
def substring2to15 (s : Str) : Str := (s.drop 2).take 13

/-- The nonce of source line 97, from the two `Math.random().toString(36)`
draws given as explicit inputs:
`r1.substring(2, 15) + r2.substring(2, 15)`. -/
def nonceOf (r1 r2 : Str) : Str := substring2to15 r1 ++ substring2to15 r2

/-- Source lines 92-99: the OAuth protocol parameter object, in insertion
order, before the signature is added. -/
def oauthParamsBase (cred : Credential) (ts nonce : Str) : List (Str × Str) :=
  [(kConsumerKey, cred.consumerKey), (kToken, cred.accessToken),
   (kSignatureMethod, asStr "HMAC-SHA1"), (kTimestamp, ts),
   (kNonce, nonce), (kVersion, asStr "1.0")]

/-- Source lines 101-106: merge the OAuth parameters with the query
parameters, sign, and store the signature into the OAuth parameter object. -/
def headerParams (method url : Str) (queryParams : List (Str × Str))
    (cred : Credential) (ts nonce : Str) : List (Str × Str) :=
  let allParams := objMerge (oauthParamsBase cred ts nonce) queryParams
  let signature :=
    generateOAuthSignature method url allParams cred.consumerSecret cred.accessTokenSecret
  objSet (oauthParamsBase cred ts nonce) kSignature signature

/-- One `key="value"` item of the Authorization header (source line 111). -/
def renderPair (hp : List (Str × Str)) (k : Str) : Str :=
  encodeURIComponent k ++ [61, 34] ++ encodeURIComponent (lookupD hp k) ++ [34]

/-- Source lines 91-115, `createOAuthHeader(method, url, queryParams)`; the
clock (`Date.now()` milliseconds) and the two `Math.random().toString(36)`
strings are explicit inputs. -/
def createOAuthHeader (method url : Str) (queryParams : List (Str × Str))
    (cred : Credential) (nowMs : Nat) (r1 r2 : Str) : Str :=
  let ts := natToDecStr (nowMs / 1000)
  let nonce := nonceOf r1 r2
  let hp := headerParams method url queryParams cred ts nonce
  asStr "OAuth " ++
    joinSep (asStr ", ") ((sortStrs (hp.map Prod.fst)).map (renderPair hp))

/-- A returned header is complete when it carries the `OAuth ` prefix (the
amended claims additionally pin the full shape by an explicit equation). -/
def isCompleteHeader (s : Str) : Bool := (asStr "OAuth ").isPrefixOf s

/-- Base-36 digit characters: `0`-`9`, `a`-`z`. -/
def isBase36Digit (c : Nat) : Bool := (48 ≤ c && c ≤ 57) || (97 ≤ c && c ≤ 122)

/-- ASCII alphanumeric characters. -/
def isAsciiAlnum (c : Nat) : Bool :=
  (48 ≤ c && c ≤ 57) || (65 ≤ c && c ≤ 90) || (97 ≤ c && c ≤ 122)

/-- The possible results of `Math.random().toString(36)`: radix-36
`Number::toString` of a double in `[0, 1)` yields `"0"` for zero and
otherwise `"0."` followed by at least one base-36 digit. -/
def isRandom36 (s : Str) : Bool :=
  s == [48] ||
    (2 < s.length && s.take 2 == [48, 46] && (s.drop 2).all isBase36Digit)

-- Cross-checks of the signer pipeline on concrete inputs.
example :
    generateOAuthSignature (asStr "GET") (asStr "https://api.x.com/2/users/by/username/alice")
      [(kConsumerKey, asStr "ck"), (kToken, asStr "tok"),
       (kSignatureMethod, asStr "HMAC-SHA1"), (kTimestamp, asStr "1700000000"),
       (kNonce, asStr "abc123"), (kVersion, asStr "1.0"),
       (asStr "user.fields", asStr "id")]
      (asStr "cs") (asStr "tks") = asStr "pXDriLvbOyaFHMAOHqhd1l7npM4=" := by decide

example :
    createOAuthHeader (asStr "GET") (asStr "https://api.x.com/2/users/by/username/alice")
      [(asStr "user.fields", asStr "id")]
      ⟨asStr "ck", asStr "cs", asStr "tok", asStr "tks"⟩
      1700000000123 (asStr "0.abc123def456xyz") (asStr "0.qqq777") =
    asStr "OAuth oauth_consumer_key=\"ck\", oauth_nonce=\"abc123def456xqqq777\", oauth_signature=\"1I%2B4K%2BqIuVOLkkfInPlGJheIrbs%3D\", oauth_signature_method=\"HMAC-SHA1\", oauth_timestamp=\"1700000000\", oauth_token=\"tok\", oauth_version=\"1.0\"" := by
  decide

/-- Tweet record displayed by the browser app (`src/App.tsx`). -/
structure Bookmark where
  id : String
  text : String
  created_at : String
  author_username : Option String
  author_name : Option String
  url : Option String
  author_id : Option String
  public_metrics : Option (Nat × Nat × Nat)

/-- The React component state of `App` (`src/App.tsx` lines 25-30). -/
structure AppState where
  bearerToken : String
  username : String
  maxBookmarks : Nat
  bookmarks : List Bookmark
  loading : Bool
  error : String

/-- An observable network action; `fetchBookmarks` would emit one per
`fetch(...)` call it performs. -/
inductive NetEffect where
  | httpFetch (url : String)

/-- The literal notice `fetchBookmarks` stores into the error state
(`src/App.tsx` line 33). -/
def unsupportedNotice : String :=
  "⚠️ Browser-based fetching is not supported for X bookmarks. The X API requires OAuth 1.0a User Context authentication which cannot be implemented securely in a browser. Please use the GitHub Actions workflow or run the script locally with proper OAuth credentials."

/-- `fetchBookmarks` from `src/App.tsx` lines 32-47: it sets the error notice
and returns at once; everything after the `return` statement (the bearer-token
check, the loading flag, the two `fetch` calls) is unreachable, so the
reachable behavior is exactly this state update with no network effects. -/
def fetchBookmarks (s : AppState) : AppState × List NetEffect :=
  ({ s with error := unsupportedNotice }, [])

theorem ltLex_asymm : ∀ x y, ltLex x y = true → ltLex y x = false := by
  intro x
  induction x with
  | nil =>
    intro y h
    cases y with
    | nil => simp [ltLex] at h
    | cons b bs => simp [ltLex]
  | cons a as ih =>
    intro y h
    cases y with
    | nil => simp [ltLex] at h
    | cons b bs =>
      simp only [ltLex] at h ⊢
      by_cases h1 : a < b
      · have h2 : ¬ b < a := by omega
        simp [h1, h2]
      · by_cases h2 : b < a
        · simp [h1, h2] at h
        · have hab : a = b := by omega
          subst hab
          simp [h1] at h ⊢
          exact ih bs h

theorem ltLex_trans : ∀ x y z, ltLex x y = true → ltLex y z = true → ltLex x z = true := by
  intro x
  induction x with
  | nil =>
    intro y z hxy hyz
    cases y with
    | nil => simp [ltLex] at hxy
    | cons b bs =>
      cases z with
      | nil => simp [ltLex] at hyz
      | cons c cs => simp [ltLex]
  | cons a as ih =>
    intro y z hxy hyz
    cases y with
    | nil => simp [ltLex] at hxy
    | cons b bs =>
      cases z with
      | nil => simp [ltLex] at hyz
      | cons c cs =>
        simp only [ltLex] at hxy hyz ⊢
        by_cases h1 : a < b
        · by_cases h2 : b < c
          · have : a < c := by omega
            simp [this]
          · by_cases h3 : c < b
            · simp [h2, h3] at hyz
            · have : b = c := by omega
              subst this
              simp [h1]
        · by_cases h4 : b < a
          · simp [h1, h4] at hxy
          · have hab : a = b := by omega
            subst hab
            simp [h1] at hxy
            by_cases h2 : a < c
            · simp [h2]
            · by_cases h3 : c < a
              · simp [h2, h3] at hyz
              · have : a = c := by omega
                subst this
                simp [h2] at hyz ⊢
                exact ih bs cs hxy hyz

theorem ltLex_connex : ∀ x y, ltLex x y = false → ltLex y x = false → x = y := by
  intro x
  induction x with
  | nil =>
    intro y h1 h2
    cases y with
    | nil => rfl
    | cons b bs => simp [ltLex] at h1
  | cons a as ih =>
    intro y h1 h2
    cases y with
    | nil => simp [ltLex] at h2
    | cons b bs =>
      simp only [ltLex] at h1 h2
      by_cases hab : a < b
      · simp [hab] at h1
      · by_cases hba : b < a
        · simp [hba, hab] at h2
        · have : a = b := by omega
          subst this
          simp [hab] at h1 h2
          rw [ih bs h1 h2]

instance : IsTotal Str JsLe where
  total s t := by
    unfold JsLe jsLeStr
    by_cases h : jsLtStr t s = true
    · right
      have := ltLex_asymm _ _ h
      unfold jsLtStr at this ⊢
      simp [this]
    · left
      simp [Bool.not_eq_true] at h
      simp [h]

instance : IsTrans Str JsLe where
  trans a b c hab hbc := by
    unfold JsLe jsLeStr jsLtStr at hab hbc ⊢
    simp only [Bool.not_eq_true'] at hab hbc ⊢
    by_cases h : ltLex (utf16Str b) (utf16Str a) = true
    · simp [h] at hab
    · simp [Bool.not_eq_true] at h
      by_cases hcb : ltLex (utf16Str c) (utf16Str b) = true
      · simp [hcb] at hbc
      · simp [Bool.not_eq_true] at hcb
        by_cases hgoal : ltLex (utf16Str c) (utf16Str a) = true
        · by_cases hba : ltLex (utf16Str a) (utf16Str b) = true
          · have := ltLex_trans _ _ _ hgoal hba
            rw [this] at hcb
            simp at hcb
          · simp [Bool.not_eq_true] at hba
            have := ltLex_connex _ _ hba h
            rw [this] at hgoal
            rw [hgoal] at hcb
            simp at hcb
        · simp [Bool.not_eq_true] at hgoal
          exact hgoal

theorem objSet_lookup_self : ∀ (o : List (Str × Str)) (k v : Str),
    (objSet o k v).lookup k = some v := by
  intro o k v
  induction o with
  | nil => simp [objSet, List.lookup]
  | cons kv rest ih =>
    obtain ⟨a, b⟩ := kv
    by_cases h : a = k
    · subst h
      simp [objSet, List.lookup]
    · have h' : k ≠ a := fun he => h he.symm
      have hb : (a == k) = false := by simp [h]
      have hb2 : (k == a) = false := by simp [h']
      simp [objSet, hb, List.lookup, hb2, ih]

theorem objSet_lookup_ne : ∀ (o : List (Str × Str)) (k v k' : Str), k' ≠ k →
    (objSet o k v).lookup k' = o.lookup k' := by
  intro o k v k' hne
  have hb0 : (k' == k) = false := by simp [hne]
  induction o with
  | nil => simp [objSet, List.lookup, hb0]
  | cons kv rest ih =>
    obtain ⟨a, b⟩ := kv
    by_cases h : a = k
    · subst h
      simp [objSet, List.lookup, hb0]
    · have hb : (a == k) = false := by simp [h]
      simp [objSet, hb, List.lookup, ih]

theorem objMerge_cons (base : List (Str × Str)) (kv : Str × Str) (rest : List (Str × Str)) :
    objMerge base (kv :: rest) = objMerge (objSet base kv.1 kv.2) rest := rfl

theorem objMerge_lookup_of_notmem : ∀ (q base : List (Str × Str)) (k : Str),
    k ∉ q.map Prod.fst → (objMerge base q).lookup k = base.lookup k := by
  intro q
  induction q with
  | nil => intro base k _; rfl
  | cons kv rest ih =>
    intro base k hk
    simp only [List.map_cons, List.mem_cons] at hk
    push_neg at hk
    rw [objMerge_cons, ih _ _ hk.2, objSet_lookup_ne _ _ _ _ hk.1]

theorem objMerge_lookup_mem : ∀ (q base : List (Str × Str)) (k v : Str),
    (q.map Prod.fst).Nodup → (k, v) ∈ q → (objMerge base q).lookup k = some v := by
  intro q
  induction q with
  | nil => intro base k v _ hmem; simp at hmem
  | cons kv rest ih =>
    intro base k v hnd hmem
    simp only [List.map_cons, List.nodup_cons] at hnd
    rcases List.mem_cons.1 hmem with heq | hmem'
    · have hk : kv.1 = k := by rw [← heq]
      have hv : kv.2 = v := by rw [← heq]
      have hnot : k ∉ rest.map Prod.fst := hk ▸ hnd.1
      rw [objMerge_cons, objMerge_lookup_of_notmem _ _ _ hnot, hk, hv,
        objSet_lookup_self]
    · exact objMerge_cons _ _ _ ▸ ih _ _ _ hnd.2 hmem'

theorem utf16Str_of_bmp : ∀ s : Str, (∀ c ∈ s, c < 65536) → utf16Str s = s := by
  intro s h
  induction s with
  | nil => rfl
  | cons c rest ih =>
    have hc : c < 65536 := h c (by simp)
    have hr := ih fun x hx => h x (by simp [hx])
    simp [utf16Str, utf16Units, hc] at hr ⊢
    exact hr

theorem utf8Str_of_ascii : ∀ s : Str, (∀ c ∈ s, c < 128) → utf8Str s = s := by
  intro s h
  induction s with
  | nil => rfl
  | cons c rest ih =>
    have hc : c < 128 := h c (by simp)
    have hr := ih fun x hx => h x (by simp [hx])
    simp [utf8Str, utf8EncodeChar, hc] at hr ⊢
    exact hr

theorem jsLe_imp_byteLe_of_ascii (s t : Str) (hs : ∀ c ∈ s, c < 128)
    (ht : ∀ c ∈ t, c < 128) : JsLe s t → ByteLe s t := by
  intro h
  unfold JsLe jsLeStr jsLtStr at h
  unfold ByteLe byteLtStr
  rw [utf16Str_of_bmp s fun c hc => lt_trans (hs c hc) (by omega),
    utf16Str_of_bmp t fun c hc => lt_trans (ht c hc) (by omega)] at h
  rw [utf8Str_of_ascii s hs, utf8Str_of_ascii t ht]
  simpa using h

theorem percentDecode_cons_ne (c : Nat) (r : Str) (hc : c ≠ 37) :
    percentDecode (c :: r) = c :: percentDecode r := by
  simp [percentDecode, hc]

theorem isPrefixOf_append (l r : List Nat) : l.isPrefixOf (l ++ r) = true := by
  rw [List.isPrefixOf_iff_prefix]
  exact List.prefix_append l r

theorem createOAuthHeader_isComplete (method url : Str) (queryParams : List (Str × Str))
    (cred : Credential) (nowMs : Nat) (r1 r2 : Str) :
    isCompleteHeader (createOAuthHeader method url queryParams cred nowMs r1 r2) = true := by
  unfold isCompleteHeader createOAuthHeader
  exact isPrefixOf_append _ _

/-- C1: for every method, base URL, combined parameter map, consumer secret
and token secret, `generateOAuthSignature` returns
base64(HMAC-SHA1(key, msg)) where msg is the signature base string
METHOD & percent-encode(base URL) & percent-encode(sorted-and-joined
parameter string) and key is
percent-encode(consumer secret) & percent-encode(token secret). -/
theorem c1_signature_is_base64_hmac_of_base_string (method url : Str)
    (params : List (Str × Str)) (consumerSecret tokenSecret : Str) :
    generateOAuthSignature method url params consumerSecret tokenSecret =
      base64 (hmacSha1 (utf8Str (specSigningKey consumerSecret tokenSecret))
        (utf8Str (specSignatureBaseString method url params))) := rfl

/-- C2 counterexample: at a concrete input the header parameter set carries
seven `key="value"` pairs — `oauth_token` included — not the six the claim
lists. -/
theorem c2_counterexample_seven_pairs :
    sortStrs ((headerParams (asStr "GET") (asStr "https://api.example.com/r") []
        ⟨asStr "ck", asStr "cs", asStr "tok", asStr "tks"⟩
        (natToDecStr 1700000000) (asStr "abc123")).map Prod.fst) =
      [kConsumerKey, kNonce, kSignature, kSignatureMethod, kTimestamp, kToken, kVersion] ∧
    [kConsumerKey, kNonce, kSignature, kSignatureMethod, kTimestamp, kToken, kVersion] ≠
      [kConsumerKey, kNonce, kSignature, kSignatureMethod, kTimestamp, kVersion] := by
  constructor
  · rfl
  · decide

/-- C2 amended: for every credential and query-parameter map (the empty one
included) the header is the literal `OAuth ` prefix followed by exactly seven
comma-separated `key="value"` pairs — the six claimed ones plus
`oauth_token` — sorted lexicographically by key, and every pair's key is one
of those seven OAuth protocol names, so no query parameter contributes a
pair. -/
theorem c2_header_shape (method url : Str) (queryParams : List (Str × Str))
    (cred : Credential) (nowMs : Nat) (r1 r2 : Str) :
    createOAuthHeader method url queryParams cred nowMs r1 r2 =
      asStr "OAuth " ++ joinSep (asStr ", ")
        ([kConsumerKey, kNonce, kSignature, kSignatureMethod, kTimestamp, kToken, kVersion].map
          (renderPair (headerParams method url queryParams cred
            (natToDecStr (nowMs / 1000)) (nonceOf r1 r2)))) ∧
    List.Pairwise ByteLe
      [kConsumerKey, kNonce, kSignature, kSignatureMethod, kTimestamp, kToken, kVersion] := by
  constructor
  · rfl
  · decide

/-- C4 counterexample: with every credential field empty and the
unrecognized method `FROBNICATE`, `createOAuthHeader` does not fail — it
returns a complete `OAuth `-prefixed header, so neither the
`InvalidCredential` nor the `UnsupportedMethod` failure the claim requires
exists in the code. -/
theorem c4_counterexample_no_failure :
    isCompleteHeader (createOAuthHeader (asStr "FROBNICATE")
      (asStr "https://api.example.com/r") [] ⟨[], [], [], []⟩ 0 [] []) = true := by decide

/-- C4 amended: `createOAuthHeader` performs no credential or method
validation at all: for every method (recognized or not) and every
credential (empty fields included) it returns a complete header. The
surrounding script checks only at startup that the four environment
variables are set, and exits before any signing if one is missing. -/
theorem c4_no_validation_always_complete (method url : Str)
    (queryParams : List (Str × Str)) (cred : Credential) (nowMs : Nat) (r1 r2 : Str) :
    isCompleteHeader (createOAuthHeader method url queryParams cred nowMs r1 r2) = true :=
  createOAuthHeader_isComplete method url queryParams cred nowMs r1 r2

/-- C6 counterexample: with the colliding query map
`oauth_version ↦ "9"` the function does not fail: it returns a complete
header, the signed parameter set silently takes the query value `"9"`, and
the emitted header still carries the protocol value `"1.0"`. -/
theorem c6_counterexample_silent_merge :
    isCompleteHeader (createOAuthHeader (asStr "GET") (asStr "https://api.example.com/r")
      [(kVersion, asStr "9")] ⟨asStr "ck", asStr "cs", asStr "tok", asStr "tks"⟩
      0 (asStr "0.abc") (asStr "0.def")) = true ∧
    lookupD (objMerge (oauthParamsBase ⟨asStr "ck", asStr "cs", asStr "tok", asStr "tks"⟩
        (natToDecStr 0) (nonceOf (asStr "0.abc") (asStr "0.def"))) [(kVersion, asStr "9")])
      kVersion = asStr "9" ∧
    lookupD (headerParams (asStr "GET") (asStr "https://api.example.com/r")
        [(kVersion, asStr "9")] ⟨asStr "ck", asStr "cs", asStr "tok", asStr "tks"⟩
        (natToDecStr 0) (nonceOf (asStr "0.abc") (asStr "0.def")))
      kVersion = asStr "1.0" := by decide

/-- C6 amended: a query parameter whose name collides with an OAuth protocol
parameter is silently merged — the query value overrides the protocol value
in the signed parameter set (JavaScript spread semantics) — and the call
still returns a complete header; no failure occurs. -/
theorem c6_collision_overrides_silently (method url : Str) (cred : Credential)
    (ts nonce : Str) (queryParams : List (Str × Str)) (k v : Str) (nowMs : Nat) (r1 r2 : Str)
    (hnd : (queryParams.map Prod.fst).Nodup) (hmem : (k, v) ∈ queryParams) :
    (objMerge (oauthParamsBase cred ts nonce) queryParams).lookup k = some v ∧
    isCompleteHeader (createOAuthHeader method url queryParams cred nowMs r1 r2) = true :=
  ⟨objMerge_lookup_mem queryParams (oauthParamsBase cred ts nonce) k v hnd hmem,
    createOAuthHeader_isComplete method url queryParams cred nowMs r1 r2⟩

theorem c6_collision_overrides_silently_witness :
    (objMerge (oauthParamsBase ⟨asStr "ck", asStr "cs", asStr "tok", asStr "tks"⟩
        (natToDecStr 0) (nonceOf (asStr "0.abc") (asStr "0.def")))
      [(kVersion, asStr "9")]).lookup kVersion = some (asStr "9") ∧
    isCompleteHeader (createOAuthHeader (asStr "POST") (asStr "https://api.example.com/r")
      [(kVersion, asStr "9")] ⟨asStr "ck", asStr "cs", asStr "tok", asStr "tks"⟩
      0 (asStr "0.abc") (asStr "0.def")) = true :=
  c6_collision_overrides_silently (asStr "POST") (asStr "https://api.example.com/r")
    ⟨asStr "ck", asStr "cs", asStr "tok", asStr "tks"⟩ (natToDecStr 0)
    (nonceOf (asStr "0.abc") (asStr "0.def")) [(kVersion, asStr "9")]
    kVersion (asStr "9") 0 (asStr "0.abc") (asStr "0.def") (by decide) (by decide)

/-- C7: with the clock and the randomness draws as explicit inputs, the
signature and the whole header are deterministic — identical inputs give
byte-identical outputs. -/
theorem c7_signature_deterministic (m u : Str) (p : List (Str × Str)) (cs ts : Str)
    (q : List (Str × Str)) (cred : Credential) (nowMs : Nat) (r1 r2 : Str)
    (m' u' : Str) (p' : List (Str × Str)) (cs' ts' : Str)
    (q' : List (Str × Str)) (cred' : Credential) (nowMs' : Nat) (r1' r2' : Str)
    (hm : m = m') (hu : u = u') (hp : p = p') (hcs : cs = cs') (hts : ts = ts')
    (hq : q = q') (hcred : cred = cred') (hnow : nowMs = nowMs')
    (hr1 : r1 = r1') (hr2 : r2 = r2') :
    generateOAuthSignature m u p cs ts = generateOAuthSignature m' u' p' cs' ts' ∧
    createOAuthHeader m u q cred nowMs r1 r2 =
      createOAuthHeader m' u' q' cred' nowMs' r1' r2' := by
  subst_vars
  exact ⟨rfl, rfl⟩

theorem c7_signature_deterministic_witness :
    generateOAuthSignature (asStr "GET") (asStr "https://e") [] (asStr "cs") (asStr "ts") =
      generateOAuthSignature (asStr "GET") (asStr "https://e") [] (asStr "cs") (asStr "ts") ∧
    createOAuthHeader (asStr "GET") (asStr "https://e") []
        ⟨asStr "ck", asStr "cs", asStr "tok", asStr "tks"⟩ 0 (asStr "0.a") (asStr "0.b") =
      createOAuthHeader (asStr "GET") (asStr "https://e") []
        ⟨asStr "ck", asStr "cs", asStr "tok", asStr "tks"⟩ 0 (asStr "0.a") (asStr "0.b") :=
  c7_signature_deterministic (asStr "GET") (asStr "https://e") [] (asStr "cs") (asStr "ts")
    [] ⟨asStr "ck", asStr "cs", asStr "tok", asStr "tks"⟩ 0 (asStr "0.a") (asStr "0.b")
    (asStr "GET") (asStr "https://e") [] (asStr "cs") (asStr "ts")
    [] ⟨asStr "ck", asStr "cs", asStr "tok", asStr "tks"⟩ 0 (asStr "0.a") (asStr "0.b")
    rfl rfl rfl rfl rfl rfl rfl rfl rfl rfl

/-- C10: for every component state, `fetchBookmarks` sets the error message
to the fixed unsupported notice and returns immediately: it issues no
network request and leaves the bookmarks list and the loading flag
unchanged. -/
theorem c10_fetchBookmarks_unsupported_notice (s : AppState) :
    (fetchBookmarks s).1.error = unsupportedNotice ∧
    (fetchBookmarks s).1.bookmarks = s.bookmarks ∧
    (fetchBookmarks s).1.loading = s.loading ∧
    (fetchBookmarks s).2 = [] :=
  ⟨rfl, rfl, rfl, rfl⟩

theorem utf8EncodeChar_lt_256 (c : Nat) (hc : c < 1114112) :
    ∀ b ∈ utf8EncodeChar c, b < 256 := by
  intro b hb
  unfold utf8EncodeChar at hb
  split_ifs at hb with h1 h2 h3
  · simp at hb
    omega
  · simp at hb
    rcases hb with hb | hb <;> omega
  · simp at hb
    rcases hb with hb | hb | hb <;> omega
  · simp at hb
    rcases hb with hb | hb | hb | hb <;> omega

theorem encodeURIComponent_cons (c : Nat) (rest : Str) :
    encodeURIComponent (c :: rest) =
      (if uriUnescaped c then [c] else ((utf8EncodeChar c).map percentEscape).flatten) ++
        encodeURIComponent rest := by
  simp [encodeURIComponent]

/-- C3 counterexample: the character `!` (code 33) is not RFC 3986
unreserved, yet the encoder used for the parameter string and the header
leaves it unescaped instead of producing `%21`. -/
theorem c3_counterexample_bang :
    rfc3986Unreserved 33 = false ∧ encodeURIComponent [33] = [33] ∧
    rfc3986Encode [33] = [37, 50, 49] ∧
    encodeURIComponent [33] ≠ rfc3986Encode [33] := by decide

/-- C3 amended: the encoding leaves exactly the RFC 3986 unreserved
characters plus the five marks `! * ' ( )` unescaped (JavaScript
`encodeURIComponent` semantics); every other character of the input becomes
uppercase-hex percent escapes of its UTF-8 bytes, each emitted character of
an escape being `%`, a digit, or `A`-`F`. -/
theorem c3_encode_keep_set :
    (∀ c, uriUnescaped c =
      (rfc3986Unreserved c || (c == 33 || c == 42 || c == 39 || c == 40 || c == 41))) ∧
    (∀ s, encodeURIComponent s =
      (s.map (fun c => if uriUnescaped c then [c]
        else ((utf8EncodeChar c).map percentEscape).flatten)).flatten) ∧
    (∀ c, c < 1114112 → uriUnescaped c = false →
      ∀ d ∈ encodeURIComponent [c],
        d = 37 ∨ (48 ≤ d ∧ d ≤ 57) ∨ (65 ≤ d ∧ d ≤ 70)) := by
  refine ⟨?_, fun s => rfl, ?_⟩
  · intro c
    rcases Nat.lt_or_ge c 127 with h | h
    · exact (by decide :
        ∀ c < 127, uriUnescaped c =
          (rfc3986Unreserved c || (c == 33 || c == 42 || c == 39 || c == 40 || c == 41))) c h
    · have hu : uriUnescaped c = false := by
        simp [uriUnescaped]
        omega
      have hr : rfc3986Unreserved c = false := by
        simp [rfc3986Unreserved]
        omega
      have h33 : (c == 33) = false := by simp; omega
      have h42 : (c == 42) = false := by simp; omega
      have h39 : (c == 39) = false := by simp; omega
      have h40 : (c == 40) = false := by simp; omega
      have h41 : (c == 41) = false := by simp; omega
      rw [hu, hr, h33, h42, h39, h40, h41]
      rfl
  · intro c hc hu d hd
    have h0 : encodeURIComponent [c] = ((utf8EncodeChar c).map percentEscape).flatten := by
      simp [encodeURIComponent, hu]
    rw [h0] at hd
    simp only [List.mem_flatten, List.mem_map] at hd
    obtain ⟨l, ⟨b, hb, rfl⟩, hdl⟩ := hd
    have hb256 : b < 256 := utf8EncodeChar_lt_256 c hc b hb
    simp [percentEscape] at hdl
    rcases hdl with rfl | rfl | rfl
    · left
      rfl
    · unfold hexUpper
      split_ifs <;> omega
    · unfold hexUpper
      split_ifs <;> omega

theorem c3_encode_keep_set_witness :
    uriUnescaped 8364 = false ∧
    (37 = 37 ∨ (48 ≤ 37 ∧ 37 ≤ 57) ∨ (65 ≤ 37 ∧ 37 ≤ 70)) :=
  ⟨by decide, c3_encode_keep_set.2.2 8364 (by decide) (by decide) 37 (by decide)⟩

/-- C5 counterexample: with the astral-plane name U+10000 and the
basic-plane name U+FF61 the emitted order is JavaScript's UTF-16 code-unit
order, which puts U+10000 (surrogate units from 0xD800) first, although
byte-wise (UTF-8) ascending order puts U+FF61 first — so the names do not
appear in byte-wise ascending order. -/
theorem c5_counterexample_astral :
    paramNamesInOrder [([65536], [97]), ([65377], [98])] = [[65536], [65377]] ∧
    ¬ List.Pairwise ByteLe [[65536], [65377]] := by
  constructor
  · rfl
  · decide

/-- C5 amended: the name=value pairs of the signature parameter string
appear in ascending UTF-16 code-unit order of name (JavaScript's default
sort); whenever every name is pure ASCII — as for all parameters this
script sends — that order coincides with byte-wise ascending order. -/
theorem c5_param_names_sorted (params : List (Str × Str)) :
    (paramNamesInOrder params).Pairwise JsLe ∧
    ((∀ k ∈ params.map Prod.fst, ∀ c ∈ k, c < 128) →
      (paramNamesInOrder params).Pairwise ByteLe) := by
  constructor
  · exact List.sorted_insertionSort JsLe (params.map Prod.fst)
  · intro hascii
    have hs := List.sorted_insertionSort JsLe (params.map Prod.fst)
    refine List.Pairwise.imp_of_mem ?_ hs
    intro a b ha hb hab
    exact jsLe_imp_byteLe_of_ascii a b
      (hascii a ((List.mem_insertionSort _).1 ha))
      (hascii b ((List.mem_insertionSort _).1 hb)) hab

theorem c5_param_names_sorted_witness :
    List.Pairwise ByteLe
      (paramNamesInOrder [(asStr "user.fields", asStr "id"), (kNonce, asStr "n")]) :=
  (c5_param_names_sorted [(asStr "user.fields", asStr "id"), (kNonce, asStr "n")]).2
    (by decide)

theorem isBase36_imp_alnum : ∀ c, isBase36Digit c = true → isAsciiAlnum c = true := by
  intro c h
  simp [isBase36Digit] at h
  simp [isAsciiAlnum]
  omega

theorem random36_sub (s : Str) (h : isRandom36 s = true) :
    (substring2to15 s).all isBase36Digit = true ∧ (substring2to15 s).length ≤ 13 := by
  unfold isRandom36 at h
  simp only [Bool.or_eq_true, Bool.and_eq_true] at h
  rcases h with h | ⟨⟨hlen, htake⟩, hall⟩
  · have hs : s = [48] := by simpa using h
    subst hs
    exact ⟨rfl, by decide⟩
  · constructor
    · rw [List.all_eq_true] at hall ⊢
      intro x hx
      exact hall x ((List.take_sublist _ _).subset hx)
    · simp [substring2to15, List.length_take]

/-- C8 counterexample: `Math.random()` can return exactly 0, whose radix-36
string is `"0"`; both `substring(2, 15)` slices are then empty and the nonce
has length 0, far below the claimed minimum of 20. -/
theorem c8_counterexample_zero :
    isRandom36 (asStr "0") = true ∧ nonceOf (asStr "0") (asStr "0") = [] ∧
    ¬ 20 ≤ (nonceOf (asStr "0") (asStr "0")).length := by decide

/-- C8 amended: for every output of the randomness source the nonce is ASCII
alphanumeric (lowercase base-36 digits) and at most 26 characters long, but
its length can fall below 20 — down to 0 — when the radix-36 strings are
short, so no 20-character minimum holds. -/
theorem c8_nonce_alnum_of_random (r1 r2 : Str) (h1 : isRandom36 r1 = true)
    (h2 : isRandom36 r2 = true) :
    (nonceOf r1 r2).all isAsciiAlnum = true ∧ (nonceOf r1 r2).length ≤ 26 := by
  obtain ⟨ha1, hl1⟩ := random36_sub r1 h1
  obtain ⟨ha2, hl2⟩ := random36_sub r2 h2
  constructor
  · rw [List.all_eq_true]
    intro x hx
    rcases List.mem_append.1 hx with hx | hx
    · exact isBase36_imp_alnum x (List.all_eq_true.1 ha1 x hx)
    · exact isBase36_imp_alnum x (List.all_eq_true.1 ha2 x hx)
  · unfold nonceOf
    rw [List.length_append]
    omega

theorem c8_nonce_alnum_of_random_witness :
    (nonceOf (asStr "0.i8q") (asStr "0.z")).all isAsciiAlnum = true ∧
    (nonceOf (asStr "0.i8q") (asStr "0.z")).length ≤ 26 :=
  c8_nonce_alnum_of_random (asStr "0.i8q") (asStr "0.z") (by decide) (by decide)

/-- C9: for every value consisting of printable ASCII characters,
percent-decoding the encoded form as it appears in the produced header
reproduces the original value exactly. -/
theorem c9_decode_encode_roundtrip (s : Str) (h : ∀ c ∈ s, 32 ≤ c ∧ c ≤ 126) :
    percentDecode (encodeURIComponent s) = s := by
  induction s with
  | nil => rfl
  | cons c rest ih =>
    have hc := h c (by simp)
    have hrest : ∀ x ∈ rest, 32 ≤ x ∧ x ≤ 126 := fun x hx => h x (by simp [hx])
    have hlt : c < 128 := by omega
    by_cases hu : uriUnescaped c = true
    · have hc37 : c ≠ 37 := by
        intro he
        subst he
        exact absurd hu (by decide)
      rw [encodeURIComponent_cons, hu, if_pos rfl, List.singleton_append,
        percentDecode_cons_ne c _ hc37, ih hrest]
    · have hu' : uriUnescaped c = false := by
        revert hu
        cases uriUnescaped c <;> simp
      have henc : encodeURIComponent (c :: rest) =
          37 :: hexUpper (c / 16) :: hexUpper (c % 16) :: encodeURIComponent rest := by
        rw [encodeURIComponent_cons, hu']
        simp [utf8EncodeChar, hlt, percentEscape]
      rw [henc]
      have hdec : percentDecode
          (37 :: hexUpper (c / 16) :: hexUpper (c % 16) :: encodeURIComponent rest) =
          fromHexPair (hexUpper (c / 16)) (hexUpper (c % 16)) ::
            percentDecode (encodeURIComponent rest) := by
        simp [percentDecode]
      rw [hdec, ih hrest]
      have hfx : fromHexPair (hexUpper (c / 16)) (hexUpper (c % 16)) = c := by
        unfold fromHexPair hexUpper hexVal
        split_ifs <;> omega
      rw [hfx]

theorem c9_decode_encode_roundtrip_witness :
    percentDecode (encodeURIComponent (asStr "a b!c/d~ (x)*100%")) =
      asStr "a b!c/d~ (x)*100%" :=
  c9_decode_encode_roundtrip (asStr "a b!c/d~ (x)*100%") (by decide)
